import Mathlib

/-!
Verification development for the scroll-driven post-discovery and ingestion
pipeline of the instagram-news-scraper repository.

The JavaScript sources are shallowly embedded as executable Lean definitions:
  - `process` models `PostProcessor.process` (src/post/processor.js);
  - `parseDateNum` models the numeric branch of `parseDate`
    (src/extractor/index.js);
  - `findPostNodes`, `looksLikePost`, `normalizePost`, `emitForNode` and the
    `extract*` helpers model the GraphQL interceptor module;
  - `scrollStep` / `scrollInteractions` model the stabilization logic of the
    `driveScroll` async generator (scroll controller module);
  - `insertPost` models the JSON-file persistence gateway's `insertPost`;
  - `parseOllamaResponse` models the vision client's inference-output parser.

Modelling conventions:
  - JS `Date` instants are epoch milliseconds (`Int`); `null`/`undefined`
    become `Option.none`.
  - JS numbers are modelled as `Int` (the code only manipulates integral
    timestamps and widths; fractional values are outside the model).
  - Recursive traversals over JSON values carry an explicit structural fuel
    so that every definition is executable and kernel-reducible; each wrapper
    supplies fuel that the recursion can never exhaust, so the fuel is purely
    a totality device and does not alter the modelled semantics.
-/

/-! ## Generic string helpers (JS semantics) -/

/-- Character-list test: `pat` is an initial segment of `hay`. -/
def beginsWith : List Char → List Char → Bool
  | _, [] => true
  | [], _ :: _ => false
  | c :: cs, d :: ds => c == d && beginsWith cs ds

/-- Model of JS `String.prototype.includes`: `pat` occurs contiguously in `hay`. -/
def listIncludes : List Char → List Char → Bool
  | [], pat => pat.isEmpty
  | hay@(_ :: rest), pat => beginsWith hay pat || listIncludes rest pat

/-- Model of JS `haystack.includes(needle)`. -/
def strIncludes (hay pat : String) : Bool :=
  listIncludes hay.data pat.data

/-- JS whitespace class `\s` restricted to its ASCII members (space, tab,
LF, VT, FF, CR), which is all the code's inputs use. -/
def isJsWs (c : Char) : Bool :=
  c == ' ' || c == '\t' || c == '\n' || c == '\x0b' || c == '\x0c' || c == '\r'

/-- Model of JS `String.prototype.trim`. -/
def jsTrim (s : String) : String :=
  String.mk (((s.data.dropWhile isJsWs).reverse.dropWhile isJsWs).reverse)

/-- Decimal digit character for a digit value below ten. -/
def digitChar10 (d : Nat) : Char := Char.ofNat (48 + d)

/-- Least-significant-first decimal digits, structurally fuelled (agrees
with `Nat.digits 10` for fuel at least `n`). -/
def digitsRevF : Nat → Nat → List Nat
  | 0, _ => []
  | _ + 1, 0 => []
  | fuel + 1, n => n % 10 :: digitsRevF fuel (n / 10)

/-- Model of JS decimal rendering of a non-negative integer
(as produced by template literals and `String(n)`). -/
def jsNatRepr (n : Nat) : String :=
  if n = 0 then "0" else String.mk ((digitsRevF n n).reverse.map digitChar10)

/-- Model of JS decimal rendering of an integer. -/
def jsIntRepr (n : Int) : String :=
  if n < 0 then "-" ++ jsNatRepr n.natAbs else jsNatRepr n.natAbs

/-- JSON values as delivered by `response.json()` in the interceptor, and as
produced by `JSON.parse` in the vision client. Numbers are modelled as
integers (see the header note). Object fields keep their textual order;
keys are unique in every value the code ever receives. -/
inductive Json where
  | null
  | bool (b : Bool)
  | num (n : Int)
  | str (s : String)
  | arr (elems : List Json)
  | obj (fields : List (String × Json))

/-- JS truthiness of a defined value (`undefined` is represented by
`Option.none` at use sites). -/
def jsTruthy : Json → Bool
  | .null => false
  | .bool b => b
  | .num n => n != 0
  | .str s => !s.isEmpty
  | .arr _ => true
  | .obj _ => true

/-- JS property read `v[key]`: a field of an object, `undefined` (`none`)
otherwise. -/
def Json.getField : Json → String → Option Json
  | .obj fs, k => fs.lookup k
  | _, _ => none

/-- JS `typeof v === 'object'` (true for `null`, arrays and plain objects). -/
def Json.isObjectType : Json → Bool
  | .null => true
  | .arr _ => true
  | .obj _ => true
  | _ => false

/-- JS `Array.isArray(v)`. -/
def Json.isArr : Json → Bool
  | .arr _ => true
  | _ => false

/-- Truthiness of a possibly-undefined value. -/
def jsTruthyOpt (o : Option Json) : Bool :=
  match o with
  | some v => jsTruthy v
  | none => false

/-- JS `a || b` over possibly-undefined values: the first operand when
truthy, otherwise the second operand unchanged. -/
def jsOrVal (a b : Option Json) : Option Json :=
  match a with
  | some v => if jsTruthy v then some v else b
  | none => b

theorem sizeOf_mem_json_arr {x : Json} {xs : List Json} (h : x ∈ xs) :
    sizeOf x < sizeOf (Json.arr xs) := by
  have := List.sizeOf_lt_of_mem h
  simp only [Json.arr.sizeOf_spec]
  omega

theorem sizeOf_snd_mem_json_obj {p : String × Json} {fs : List (String × Json)}
    (h : p ∈ fs) : sizeOf p.2 < sizeOf (Json.obj fs) := by
  have h1 : sizeOf p < sizeOf fs := List.sizeOf_lt_of_mem h
  have h2 : sizeOf p.2 < sizeOf p := by
    obtain ⟨a, b⟩ := p
    simp only [Prod.mk.sizeOf_spec]
    omega
  simp only [Json.obj.sizeOf_spec]
  omega

/-- Structural size of a JSON value, used as recursion fuel for array
rendering below. -/
def Json.size : Json → Nat
  | .null => 1
  | .bool _ => 1
  | .num _ => 1
  | .str _ => 1
  | .arr xs => 1 + (xs.attach.map (fun x => Json.size x.1)).foldl (· + ·) 0
  | .obj fs => 1 + (fs.attach.map (fun p => Json.size p.1.2)).foldl (· + ·) 0
termination_by j => sizeOf j
decreasing_by
  all_goals first
  | exact sizeOf_mem_json_arr x.2
  | exact sizeOf_snd_mem_json_obj p.2

/-- Fuelled model of JS `String(v)` (ToPrimitive string conversion); the
fuel is only consumed when descending into array elements and can never
run out when supplied with the value's size. -/
def jsToStringF : Nat → Json → String
  | 0, _ => ""
  | _ + 1, .null => "null"
  | _ + 1, .bool b => if b then "true" else "false"
  | _ + 1, .num n => jsIntRepr n
  | _ + 1, .str s => s
  | fuel + 1, .arr xs =>
      String.intercalate ","
        (xs.map (fun x =>
          match x with
          | .null => ""
          | v => jsToStringF fuel v))
  | _ + 1, .obj _ => "[object Object]"

/-- Model of JS `String(v)`. Scalar cases are immediate; array contents are
rendered through the fuelled renderer (JS joins elements with commas,
rendering `null`/`undefined` elements as empty). -/
def jsToString : Json → String
  | .null => "null"
  | .bool b => if b then "true" else "false"
  | .num n => jsIntRepr n
  | .str s => s
  | .arr xs =>
      String.intercalate ","
        (xs.map (fun x =>
          match x with
          | .null => ""
          | v => jsToStringF v.size v))
  | .obj _ => "[object Object]"

/-- First truthy value of a possibly-undefined chain step, rendered as a
string (identity on JS strings); used to model `x.f || y` picks feeding
string positions. -/
def truthyStr (o : Option Json) : Option String :=
  match o with
  | some v => if jsTruthy v then some (jsToString v) else none
  | none => none

/-- JS `a || b` where `a` is a string-or-null slot (the empty string is
falsy and falls through). -/
def jsStrOr (a b : Option String) : Option String :=
  match a with
  | some s => if s.isEmpty then b else some s
  | none => b

/-! ## Post Processor (src/post/processor.js) -/

/-- Normalized post as consumed by `PostProcessor.process`: the identifier,
the parsed publish instant (epoch ms; `none` models a null/absent date) and
the caption text (`captionText || ''` makes the empty string the neutral
value, so a plain `String` is faithful). -/
structure NPost where
  postIdentifier : String
  publishedAt : Option Int
  captionText : String
deriving Repr, DecidableEq

/-- Counter block `this.stats` of the post processor. -/
structure Stats where
  total : Nat
  inRange : Nat
  skipped : Nat
  tooOld : Nat
  tooNew : Nat
  noDate : Nat
  noDup : Nat
  noKeyword : Nat
deriving Repr, DecidableEq

def Stats.init : Stats := ⟨0, 0, 0, 0, 0, 0, 0, 0⟩

/-- Mutable state of a `PostProcessor` instance. `keywords` holds the
lowercased configured keywords (the constructor lowercases them);
`latestStoredDate` is the persisted resume checkpoint (`none` = null). -/
structure ProcState where
  startDate : Int
  endDate : Int
  latestStoredDate : Option Int
  keywords : List String
  seenIds : List String
  stats : Stats
  belowBoundary : Bool
deriving Repr, DecidableEq

/-- Constructor of `PostProcessor`: lowercases keywords, starts with an
empty seen-set, zero counters and a cleared boundary flag. -/
def mkPostProcessor (startDate endDate : Int) (latestStoredDate : Option Int)
    (keywords : List String) : ProcState :=
  { startDate := startDate
    endDate := endDate
    latestStoredDate := latestStoredDate
    keywords := keywords.map String.toLower
    seenIds := []
    stats := Stats.init
    belowBoundary := false }

/-- Rejection reasons, one per short-circuit branch of `process` (the
already-archived branch has no dedicated per-reason counter in the code;
it bumps only the aggregate `skipped`). -/
inductive Reason where
  | duplicate
  | noDate
  | tooNew
  | tooOld
  | alreadyArchived
  | noKeyword
deriving Repr, DecidableEq

/-- Result of one `process` call: the boolean return value, the list of
`onValidPost` callback invocations made during the call, the branch that
rejected the post (if any), and the post-state. -/
structure ProcResult where
  accepted : Bool
  emitted : List NPost
  reason : Option Reason
  state : ProcState
deriving Repr, DecidableEq

/-- Model of `PostProcessor.process` (processor.js lines 50-113), branch for
branch: duplicate, no-date, too-new, too-old, already-archived, keyword
filter, then acceptance. -/
def process (st0 : ProcState) (post : NPost) : ProcResult :=
  let st1 : ProcState :=
    { st0 with
      stats := { st0.stats with total := st0.stats.total + 1 }
      belowBoundary := false }
  if st1.seenIds.contains post.postIdentifier then
    { accepted := false, emitted := [], reason := some .duplicate,
      state := { st1 with stats := { st1.stats with noDup := st1.stats.noDup + 1 } } }
  else
    let st2 : ProcState := { st1 with seenIds := post.postIdentifier :: st1.seenIds }
    match post.publishedAt with
    | none =>
        { accepted := false, emitted := [], reason := some .noDate,
          state := { st2 with stats := { st2.stats with noDate := st2.stats.noDate + 1 } } }
    | some ts =>
        if ts > st2.endDate then
          { accepted := false, emitted := [], reason := some .tooNew,
            state := { st2 with stats := { st2.stats with
              tooNew := st2.stats.tooNew + 1
              skipped := st2.stats.skipped + 1 } } }
        else if ts < st2.startDate then
          { accepted := false, emitted := [], reason := some .tooOld,
            state := { st2 with
              belowBoundary := true
              stats := { st2.stats with
                tooOld := st2.stats.tooOld + 1
                skipped := st2.stats.skipped + 1 } } }
        else if st2.latestStoredDate.any (fun l => ts ≤ l) then
          { accepted := false, emitted := [], reason := some .alreadyArchived,
            state := { st2 with stats := { st2.stats with
              skipped := st2.stats.skipped + 1 } } }
        else if st2.keywords.length > 0 &&
            !(st2.keywords.any (fun kw =>
              strIncludes (String.toLower post.captionText) kw)) then
          { accepted := false, emitted := [], reason := some .noKeyword,
            state := { st2 with stats := { st2.stats with
              noKeyword := st2.stats.noKeyword + 1
              skipped := st2.stats.skipped + 1 } } }
        else
          { accepted := true, emitted := [post], reason := none,
            state := { st2 with stats := { st2.stats with
              inRange := st2.stats.inRange + 1 } } }

/-- Getter `uniqueSeen` (`this.seenIds.size`; the seen-set is modelled as a
duplicate-free list, so its length is the set's size). -/
def uniqueSeen (st : ProcState) : Nat := st.seenIds.length

/-- Feeding a sequence of posts through `process`, keeping only the state. -/
def runProcess (st : ProcState) : List NPost → ProcState
  | [] => st
  | p :: ps => runProcess (process st p).state ps

/-! ## Date utility (src/extractor/index.js, numeric branch of `parseDate`) -/

/-- Largest magnitude (in ms) a JS `Date` accepts; beyond it the date is
invalid and `isValid` fails. -/
def JS_MAX_DATE_MS : Int := 8640000000000000

/-- Model of `new Date(ms)` followed by the `isValid` check: the instant
when in range, otherwise the null sentinel. -/
def newDateMs (ms : Int) : Option Int :=
  if -JS_MAX_DATE_MS ≤ ms && ms ≤ JS_MAX_DATE_MS then some ms else none

/-- Model of the numeric branch of `parseDate` (extractor lines 36-44):
the falsy guard `if (!raw) return null` sends 0 to null; values above
`1e12` are taken as milliseconds (`new Date(num)`), others as seconds
(`fromUnixTime(num)`, i.e. `new Date(num * 1000)`), each followed by the
`isValid` check. -/
def parseDateNum (n : Int) : Option Int :=
  if n = 0 then none
  else if n > 1000000000000 then newDateMs n
  else newDateMs (n * 1000)

/-! ## ISO date-string parsing (model of `new Date(string)` for the ISO
forms the feed emits) -/

/-- Exactly `k` decimal digits from the front of `cs`. -/
def takeDigits : Nat → List Char → Option (Nat × List Char)
  | 0, cs => some (0, cs)
  | _ + 1, [] => none
  | k + 1, c :: cs =>
      if c.isDigit then
        match takeDigits k cs with
        | some (n, rest) => some ((c.toNat - 48) * 10 ^ k + n, rest)
        | none => none
      else none

/-- Gregorian leap-year test. -/
def isLeapYear (y : Int) : Bool :=
  (y % 4 == 0 && y % 100 != 0) || y % 400 == 0

/-- Days in a month of a given year. -/
def daysInMonth (y m : Int) : Int :=
  if m == 2 then (if isLeapYear y then 29 else 28)
  else if m == 4 || m == 6 || m == 9 || m == 11 then 30
  else 31

/-- Days since 1970-01-01 of a civil date (standard era-based conversion). -/
def daysFromCivil (y m d : Int) : Int :=
  let y1 := if m ≤ 2 then y - 1 else y
  let era := Int.fdiv y1 400
  let yoe := y1 - era * 400
  let mp := Int.emod (m + 9) 12
  let doy := (153 * mp + 2) / 5 + d - 1
  let doe := yoe * 365 + yoe / 4 - yoe / 100 + doy
  era * 146097 + doe - 719468

/-- Modelled from the runtime: JS `new Date(string)` restricted to the
ISO-8601 UTC forms the scraped feeds carry (`YYYY-MM-DD`, optionally
`THH:MM[:SS[.mmm]]` and a trailing `Z`); other shapes give the invalid-date
sentinel. The code only ever feeds such strings to this path. -/
def jsParseDateString (s : String) : Option Int :=
  match takeDigits 4 s.data with
  | none => none
  | some (y, r1) =>
    match r1 with
    | '-' :: r2 =>
      match takeDigits 2 r2 with
      | none => none
      | some (mo, r3) =>
        match r3 with
        | '-' :: r4 =>
          match takeDigits 2 r4 with
          | none => none
          | some (d, r5) =>
            if mo < 1 || mo > 12 || d < 1 || (d : Int) > daysInMonth y mo then none
            else
              let dayMs : Int := daysFromCivil y mo d * 86400000
              match r5 with
              | [] => some dayMs
              | 'T' :: r6 =>
                match takeDigits 2 r6 with
                | none => none
                | some (hh, r7) =>
                  match r7 with
                  | ':' :: r8 =>
                    match takeDigits 2 r8 with
                    | none => none
                    | some (mi, r9) =>
                      if hh > 23 || mi > 59 then none
                      else
                        let afterSec :
                            Option (Nat × Nat × List Char) :=
                          match r9 with
                          | ':' :: r10 =>
                            match takeDigits 2 r10 with
                            | none => none
                            | some (ss, r11) =>
                              if ss > 59 then none
                              else
                                match r11 with
                                | '.' :: r12 =>
                                  match takeDigits 3 r12 with
                                  | none => none
                                  | some (ms, r13) => some (ss, ms, r13)
                                | _ => some (ss, 0, r11)
                          | _ => some (0, 0, r9)
                        match afterSec with
                        | none => none
                        | some (ss, ms, rest) =>
                          let total := dayMs + (hh : Int) * 3600000
                            + (mi : Int) * 60000 + (ss : Int) * 1000 + (ms : Int)
                          match rest with
                          | [] => some total
                          | ['Z'] => some total
                          | _ => none
                  | _ => none
              | _ => none
        | _ => none
    | _ => none

/-! ## GraphQL interceptor (network interception module) -/

/-- Field-name hint lists, verbatim from the interceptor module. -/
def EDGE_ARRAY_HINTS : List String :=
  ["edges", "nodes", "items", "feed_items", "posts",
   "timeline_media", "media", "clips"]

def POST_NODE_HINTS : List String := ["node", "media", "post", "item"]

def IMAGE_URL_FIELDS : List String :=
  ["display_url", "display_src", "image_url", "url", "thumbnail_url",
   "thumbnail_src", "src"]

def DISPLAY_RESOURCES_FIELDS : List String :=
  ["display_resources", "image_versions2", "candidates"]

def ID_FIELDS : List String := ["id", "pk", "post_id", "media_id", "shortcode", "code"]

def CAPTION_FIELDS : List String :=
  ["edge_media_to_caption", "caption", "description", "text", "accessibility_caption"]

def TIMESTAMP_FIELDS : List String :=
  ["taken_at_timestamp", "taken_at", "timestamp", "created_at",
   "date", "date_gmt", "published_at"]

def COMMENT_FIELDS : List String :=
  ["edge_media_to_comment", "edge_media_preview_comment",
   "comments", "preview_comments", "comment_list"]

/-- Heuristic `looksLikePost`: a plain object with an id-shaped key and a
timestamp-shaped or image/media-shaped key. -/
def looksLikePost : Json → Bool
  | .obj fs =>
      let keys := fs.map Prod.fst
      (ID_FIELDS.any (fun f => keys.contains f)) &&
      ((TIMESTAMP_FIELDS.any (fun f => keys.contains f)) ||
        ((IMAGE_URL_FIELDS.any (fun f => keys.contains f)) ||
         (DISPLAY_RESOURCES_FIELDS.any (fun f => keys.contains f))))
  | _ => false

/-- Fuelled body of `findPostNodes`; the wrapper supplies fuel `13 - depth`,
which the `depth > 12` guard keeps positive at every recursive call, so
exhaustion coincides exactly with the guard. -/
def findPostNodesF : Nat → Json → Nat → List Json
  | 0, _, _ => []
  | fuel + 1, obj, depth =>
    if depth > 12 then []
    else
      match obj with
      | .arr items =>
          (items.map (fun item =>
            match item with
            | .arr _ | .obj _ =>
                let node := POST_NODE_HINTS.findSome?
                  (fun k => (item.getField k).filter jsTruthy)
                let candidate := node.getD item
                if looksLikePost candidate then [candidate]
                else findPostNodesF fuel item (depth + 1)
            | _ => [])).flatten
      | .obj fields =>
          (fields.map (fun kv =>
            if EDGE_ARRAY_HINTS.contains kv.1 && kv.2.isArr then
              findPostNodesF fuel kv.2 (depth + 1)
            else if kv.2.isObjectType then
              findPostNodesF fuel kv.2 (depth + 1)
            else [])).flatten
      | _ => []

/-- Model of the recursive post-node search `findPostNodes(obj, depth = 0)`:
depth-guarded traversal collecting post-shaped objects, unwrapping the
edge/node convention inside arrays. -/
def findPostNodes (obj : Json) (depth : Nat := 0) : List Json :=
  findPostNodesF (13 - depth) obj depth

/-- First truthy value among the named fields of `j` (JS `j.a || j.b || ...`). -/
def firstTruthyField (j : Json) (ks : List String) : Option Json :=
  ks.findSome? (fun k => (j.getField k).filter jsTruthy)

/-- JS numeric coercion of the width values used by the sort comparators;
the code only ever sees numbers here (strings/objects coerce to NaN in JS
and are outside the model). -/
def jsCoerceNum : Json → Int
  | .num n => n
  | .bool b => if b then 1 else 0
  | _ => 0

/-- Sort key `b.config_width || b.width || 0` of the display-resources sort. -/
def widthKeyCW (j : Json) : Int :=
  jsCoerceNum ((firstTruthyField j ["config_width", "width"]).getD (.num 0))

/-- Sort key `b.width || 0` of the candidates/video-versions sorts. -/
def widthKeyW (j : Json) : Int :=
  jsCoerceNum ((firstTruthyField j ["width"]).getD (.num 0))

/-- Stable insertion step for a descending sort, matching the stable
`Array.prototype.sort` with comparator `key b - key a`. -/
def insertDescBy (key : Json → Int) (x : Json) : List Json → List Json
  | [] => [x]
  | y :: ys => if key x ≤ key y then y :: insertDescBy key x ys else x :: y :: ys

/-- Stable descending sort by `key` (model of `[...arr].sort((a, b) => key b - key a)`). -/
def sortDescBy (key : Json → Int) : List Json → List Json
  | [] => []
  | x :: xs => insertDescBy key x (sortDescBy key xs)

/-- JS `sorted[0]?.k1 || sorted[0]?.k2 || ...` rendered as a string. -/
def headFieldStr (l : List Json) (ks : List String) : Option String :=
  match l.head? with
  | some h => ks.findSome? (fun k => truthyStr (h.getField k))
  | none => none

/-- JS `typeof j[k] === 'string' && j[k].startsWith('http')` returning the field. -/
def strFieldHttp (j : Json) (k : String) : Option String :=
  match j.getField k with
  | some (.str s) => if beginsWith s.data "http".data then some s else none
  | _ => none

/-- Per-field body of the display-resources loop of `extractImageUrl`:
the non-empty-array branch (sort by `config_width || width || 0`
descending, pick `src || url || display_url` of the head), then the
plain-object branch reading `candidates` (sort by `width || 0`, pick
`url || src`). -/
def drFieldPick (v : Json) : Option String :=
  match v with
  | .arr a =>
      if a.length > 0 then
        headFieldStr (sortDescBy widthKeyCW a) ["src", "url", "display_url"]
      else none
  | .obj _ =>
      match v.getField "candidates" with
      | some (.arr cands) =>
          if cands.length > 0 then
            headFieldStr (sortDescBy widthKeyW cands) ["url", "src"]
          else none
      | _ => none
  | _ => none

/-- Highest-quality entry of a `video_versions` array (`sorted[0]?.url`). -/
def videoVersionsPick (node : Json) : Option String :=
  match node.getField "video_versions" with
  | some (.arr vv) =>
      if vv.length > 0 then headFieldStr (sortDescBy widthKeyW vv) ["url"]
      else none
  | _ => none

/-- Model of `extractImageUrl`: display-resources fields first, then the
direct video-url fields, then `video_versions`, then the flat image-url
field fallbacks. -/
def extractImageUrl (node : Json) : Option String :=
  (DISPLAY_RESOURCES_FIELDS.findSome? (fun f => (node.getField f).bind drFieldPick)).orElse
    (fun _ =>
      (["video_url", "video_dash_manifest"].findSome? (strFieldHttp node)).orElse
        (fun _ =>
          (videoVersionsPick node).orElse
            (fun _ => IMAGE_URL_FIELDS.findSome? (strFieldHttp node))))

/-- Model of `extractVideoUrl`: `video_versions` best entry, then the direct
`video_url` field. -/
def extractVideoUrl (node : Json) : Option String :=
  (videoVersionsPick node).orElse (fun _ => strFieldHttp node "video_url")

/-- Nonempty string field `j[k]` (used where the code checks
`typeof x === 'string' && x.length > 0`). -/
def strNonEmptyField (j : Json) (k : String) : Option String :=
  match j.getField k with
  | some (.str s) => if s.isEmpty then none else some s
  | _ => none

/-- Last branch of a caption field: `val[0]?.text || val[0]?.content ||
val[0]?.node?.text` of a non-empty array value. -/
def captionArrPick (val : Json) : Option String :=
  match val with
  | .arr (v0 :: _) =>
      (truthyStr (v0.getField "text")).orElse (fun _ =>
        (truthyStr (v0.getField "content")).orElse (fun _ =>
          truthyStr ((v0.getField "node").bind (fun nd => nd.getField "text"))))
  | _ => none

/-- Per-field body of `extractCaption`: falsy values are skipped; a plain
string is returned unless it is an auto-generated accessibility caption;
otherwise the edge pattern, the `{ text }` object pattern, and the
caption-array pattern are tried in order. -/
def captionFieldPick (field : String) (val : Json) : Option String :=
  if !jsTruthy val then none
  else
    match val with
    | .str s =>
        if field == "accessibility_caption"
            && beginsWith s.toLower.data "photo by ".data then none
        else some s
    | _ =>
      let fromEdges :=
        match val.getField "edges" with
        | some (.arr es) =>
            match es.head? with
            | some e => (e.getField "node").bind (fun nd => strNonEmptyField nd "text")
            | none => none
        | _ => none
      match fromEdges with
      | some t => some t
      | none =>
        match strNonEmptyField val "text" with
        | some t => some t
        | none => captionArrPick val

/-- Model of `extractCaption` over the prioritized caption field list. -/
def extractCaption (node : Json) : String :=
  (CAPTION_FIELDS.findSome? (fun f => (node.getField f).bind (captionFieldPick f))).getD ""

/-- Comment record produced by the interceptor (`username` may be null). -/
structure JComment where
  username : Option String
  text : String
deriving Repr, DecidableEq

/-- One comment from an `edges`-style entry. -/
def commentFromEdge (e : Json) : JComment :=
  { username :=
      (truthyStr (((e.getField "node").bind (fun n => n.getField "owner")).bind
        (fun o => o.getField "username"))).orElse (fun _ =>
        truthyStr (((e.getField "node").bind (fun n => n.getField "user")).bind
          (fun u => u.getField "username")))
    text := (truthyStr ((e.getField "node").bind (fun n => n.getField "text"))).getD "" }

/-- One comment from a flat comment object. -/
def commentFromFlat (c : Json) : JComment :=
  { username :=
      (truthyStr ((c.getField "user").bind (fun u => u.getField "username"))).orElse
        (fun _ =>
          (truthyStr (c.getField "username")).orElse (fun _ =>
            truthyStr ((c.getField "owner").bind (fun o => o.getField "username"))))
    text :=
      (truthyStr (c.getField "text")).getD
        ((truthyStr (c.getField "content")).getD "") }

/-- Per-field body of `extractComments`: the edge pattern, then a flat array
of comment objects; entries with empty text are dropped. -/
def commentsFieldPick (val : Json) : Option (List JComment) :=
  if !jsTruthy val then none
  else
    match val.getField "edges" with
    | some (.arr es) =>
        some ((es.map commentFromEdge).filter (fun c => !c.text.isEmpty))
    | _ =>
      match val with
      | .arr cs =>
          some ((cs.map commentFromFlat).filter (fun c => !c.text.isEmpty))
      | _ => none

/-- Model of `extractComments`. -/
def extractComments (node : Json) : List JComment :=
  (COMMENT_FIELDS.findSome? (fun f => (node.getField f).bind commentsFieldPick)).getD []

/-- Model of `extractTimestamp`: first timestamp field that parses; numeric
values above `1e10` are milliseconds, others seconds; strings go through
`new Date(string)`. An out-of-range result (`isNaN(d.getTime())`) falls
through to the next field. -/
def extractTimestamp (node : Json) : Option Int :=
  TIMESTAMP_FIELDS.findSome? (fun f =>
    match node.getField f with
    | some (.num n) => if n > 10000000000 then newDateMs n else newDateMs (n * 1000)
    | some (.str s) => jsParseDateString s
    | _ => none)

/-- Model of `extractId`: first id field that is non-null and renders to a
non-empty string. -/
def extractId (node : Json) : Option String :=
  ID_FIELDS.findSome? (fun f =>
    match node.getField f with
    | some .null => none
    | some v => if (jsToString v).isEmpty then none else some (jsToString v)
    | none => none)

/-- Normalized post emitted by the interceptor (`rawNode` is kept briefly by
the code and cleared on carousel slides). -/
structure IPost where
  postIdentifier : String
  postUrl : Option String
  imageUrl : Option String
  videoUrl : Option String
  mediaType : String
  captionText : String
  comments : List JComment
  publishedAt : Option Int
  rawNode : Option Json

/-- JS `node.is_video || node.video_url || node.video_versions` truthiness. -/
def nodeIsVideo (node : Json) : Bool :=
  jsTruthyOpt (node.getField "is_video") || jsTruthyOpt (node.getField "video_url")
    || jsTruthyOpt (node.getField "video_versions")

/-- JS carousel detection `node.carousel_media || node.sidecar_media ||
node.__typename === 'GraphSidecar'`. -/
def nodeIsCarousel (node : Json) : Bool :=
  jsTruthyOpt (node.getField "carousel_media")
    || jsTruthyOpt (node.getField "sidecar_media")
    || (match node.getField "__typename" with
        | some (.str t) => t == "GraphSidecar"
        | _ => false)

/-- Model of `normalizePost`: null when no id extracts; otherwise the
normalized record with the post URL built from the shortcode, the media
type classification, and the extracted media/caption/comments/timestamp. -/
def normalizePost (node : Json) : Option IPost :=
  match extractId node with
  | none => none
  | some id =>
      let shortcode :=
        (truthyStr (node.getField "shortcode")).orElse
          (fun _ => truthyStr (node.getField "code"))
      let postUrl := shortcode.map
        (fun sc => "https://www.instagram.com/p/" ++ sc ++ "/")
      let isVideo := nodeIsVideo node
      let isCarousel := nodeIsCarousel node
      let mediaType := if isCarousel then "carousel"
        else if isVideo then "video" else "image"
      some
        { postIdentifier := id
          postUrl := postUrl
          imageUrl := extractImageUrl node
          videoUrl := if isVideo then extractVideoUrl node else none
          mediaType := mediaType
          captionText := extractCaption node
          comments := extractComments node
          publishedAt := extractTimestamp node
          rawNode := some node }

/-- JS `node.carousel_media || node.sidecar_media` as evaluated by the
emission branch of `attachInterceptor`. -/
def carouselSlidesOf (node : Json) : Option Json :=
  jsOrVal (node.getField "carousel_media") (node.getField "sidecar_media")

/-- Model of the per-node emission body of `attachInterceptor`: normalize
the node; a carousel with more than one slide emits one post per slide
(identifier suffixed `_c<k>`, slide media URL with fallback to the
parent's, caption and date inherited); otherwise the single normalized
post is emitted. -/
def emitForNode (node : Json) : List IPost :=
  match normalizePost node with
  | none => []
  | some post =>
      match carouselSlidesOf node with
      | some (.arr slides) =>
          if slides.length > 1 then
            slides.enum.map (fun p =>
              let slideIsVideo := nodeIsVideo p.2
              { post with
                postIdentifier := post.postIdentifier ++ "_c" ++ jsNatRepr (p.1 + 1)
                imageUrl := jsStrOr (extractImageUrl p.2) post.imageUrl
                videoUrl := if slideIsVideo then extractVideoUrl p.2 else none
                mediaType := if slideIsVideo then "video" else "image"
                rawNode := none })
          else [post]
      | _ => [post]

/-! ## Scroll driver (scroll controller module, `driveScroll`) -/

def MAX_STABLE_ITERS : Nat := 3

/-- One verdict-processing step of the `driveScroll` generator: a tick with
new posts resets the stable counter; otherwise the counter grows and the
generator returns (`none`) once it reaches `MAX_STABLE_ITERS`. -/
def scrollStep (stableCount : Nat) (hasNewPosts : Bool) : Option Nat :=
  if hasNewPosts then some 0
  else if stableCount + 1 ≥ MAX_STABLE_ITERS then none
  else some (stableCount + 1)

/-- Number of page-interaction blocks (scroll, keepalive, network wait,
settle pause) the generator performs after resuming on each verdict of the
list, starting from the given stable counter. Each loop iteration performs
its interaction block before yielding; a terminating verdict produces no
further interaction. The model covers the stabilization path: the
end-of-feed indicator and page closure (which only terminate earlier) are
taken as absent. -/
def scrollInteractions : Nat → List Bool → Nat
  | _, [] => 0
  | c, v :: vs =>
      match scrollStep c v with
      | none => 0
      | some c' => 1 + scrollInteractions c' vs

/-! ## Persistence gateway (JSON-file backend, `insertPost`) -/

/-- Stored post row of the JSON database (`db.posts` entries). The code
stores `publishedAt.toISOString()`; the model keeps the instant itself
(the rendering is injective and never read back by the code under
consideration). Session bookkeeping is untouched by `insertPost` and
omitted. -/
structure DbPost where
  scrape_session_id : Nat
  post_identifier : String
  source_url : Option String
  post_url : Option String
  media_type : String
  image_url : Option String
  image_path : Option String
  video_url : Option String
  caption_text : String
  comments : List JComment
  published_at : Option Int
  created_at : String
deriving Repr, DecidableEq

/-- In-memory JSON database state relevant to `insertPost`. -/
structure JsonDb where
  posts : List DbPost
deriving Repr, DecidableEq

/-- Input record of `insertPost` (fields the code reads off `postData`,
each defaulted with `|| null`, `|| "image"`, `|| ''` or `|| []`). -/
structure PostData where
  postIdentifier : String
  sourceUrl : Option String
  postUrl : Option String
  mediaType : Option String
  imageUrl : Option String
  imagePath : Option String
  videoUrl : Option String
  captionText : Option String
  comments : Option (List JComment)
  publishedAt : Option Int
deriving Repr, DecidableEq

/-- Row construction of `insertPost` (`now` stands for the wall clock read
by `new Date().toISOString()`). -/
def mkDbPost (now : String) (sessionId : Nat) (pd : PostData) : DbPost :=
  { scrape_session_id := sessionId
    post_identifier := pd.postIdentifier
    source_url := pd.sourceUrl
    post_url := pd.postUrl
    media_type := (pd.mediaType.filter (fun m => !m.isEmpty)).getD "image"
    image_url := pd.imageUrl
    image_path := pd.imagePath
    video_url := pd.videoUrl
    caption_text := (pd.captionText.filter (fun c => !c.isEmpty)).getD ""
    comments := pd.comments.getD []
    published_at := pd.publishedAt
    created_at := now }

/-- Model of the JSON-backend `insertPost`: reject (returning `false`, state
unchanged) when a row with the same `post_identifier` exists, otherwise
append the new row and return `true`. -/
def insertPost (db : JsonDb) (now : String) (sessionId : Nat) (pd : PostData) :
    Bool × JsonDb :=
  match db.posts.find? (fun p => p.post_identifier == pd.postIdentifier) with
  | some _ => (false, db)
  | none => (true, { posts := db.posts ++ [mkDbPost now sessionId pd] })

/-! ## Vision client (`parseOllamaResponse`) -/

/-- The two distinguishable parser errors. -/
inductive OllamaError where
  | noJsonFound
  | invalidJson
deriving Repr, DecidableEq

/-- Normalized inference result; all four fields are always present. -/
structure VisionResult where
  detected_text : String
  scene_description : String
  objects_detected : List String
  additional_context : String
deriving Repr, DecidableEq

def lbrace : Char := Char.ofNat 123

def rbrace : Char := Char.ofNat 125

def btick : Char := Char.ofNat 96

/-- Model of `text.replace(/^```(?:json)?\s*\x2f i, '')` followed by
`.replace(/\s*```$\x2f, '')` on an already-trimmed string. -/
def stripFences (s : String) : String :=
  let cs := s.data
  let cs :=
    if beginsWith cs [btick, btick, btick] then
      let cs := cs.drop 3
      let cs := if (cs.take 4).map Char.toLower == ['j', 's', 'o', 'n']
        then cs.drop 4 else cs
      cs.dropWhile isJsWs
    else cs
  let rcs := cs.reverse
  let cs :=
    if beginsWith rcs [btick, btick, btick] then
      ((rcs.drop 3).dropWhile isJsWs).reverse
    else cs
  String.mk cs

/-- JS `indexOf(c)` over the character list. -/
def idxOf? (cs : List Char) (c : Char) : Option Nat :=
  cs.findIdx? (· == c)

/-- JS `lastIndexOf(c)` over the character list. -/
def lastIdxOf? (cs : List Char) (c : Char) : Option Nat :=
  (cs.reverse.findIdx? (· == c)).map (fun i => cs.length - 1 - i)

/-- JS `slice(a, b)` over the character list (`b` exclusive). -/
def subRange (cs : List Char) (a b : Nat) : List Char :=
  (cs.drop a).take (b - a)

/-- JSON whitespace skip (space, tab, LF, CR — the JSON grammar's class). -/
def jsonSkipWs : List Char → List Char
  | [] => []
  | c :: cs =>
      if c == ' ' || c == '\t' || c == '\n' || c == '\r' then jsonSkipWs cs
      else c :: cs

/-- Hexadecimal digit value. -/
def hexVal (c : Char) : Option Nat :=
  if c.isDigit then some (c.toNat - 48)
  else if 97 ≤ c.toNat && c.toNat ≤ 102 then some (c.toNat - 87)
  else if 65 ≤ c.toNat && c.toNat ≤ 70 then some (c.toNat - 55)
  else none

/-- JSON string body after the opening quote: ordinary characters, the JSON
escapes, and the rule that raw control characters are rejected. The fuel is
the remaining input length and cannot run out. -/
def parseStrBody : Nat → List Char → List Char → Option (String × List Char)
  | 0, _, _ => none
  | fuel + 1, acc, cs =>
      match cs with
      | [] => none
      | c :: rest =>
        if c == '"' then some (String.mk acc.reverse, rest)
        else if c == '\\' then
          match rest with
          | [] => none
          | e :: rest2 =>
            if e == '"' then parseStrBody fuel ('"' :: acc) rest2
            else if e == '\\' then parseStrBody fuel ('\\' :: acc) rest2
            else if e == '/' then parseStrBody fuel ('/' :: acc) rest2
            else if e == 'b' then parseStrBody fuel ('\x08' :: acc) rest2
            else if e == 'f' then parseStrBody fuel ('\x0c' :: acc) rest2
            else if e == 'n' then parseStrBody fuel ('\n' :: acc) rest2
            else if e == 'r' then parseStrBody fuel ('\r' :: acc) rest2
            else if e == 't' then parseStrBody fuel ('\t' :: acc) rest2
            else if e == 'u' then
              match rest2 with
              | h1 :: h2 :: h3 :: h4 :: rest3 =>
                match hexVal h1, hexVal h2, hexVal h3, hexVal h4 with
                | some a, some b, some c2, some d =>
                    parseStrBody fuel
                      (Char.ofNat (((a * 16 + b) * 16 + c2) * 16 + d) :: acc) rest3
                | _, _, _, _ => none
              | _ => none
            else none
        else if c.toNat < 32 then none
        else parseStrBody fuel (c :: acc) rest

def spanDigits (cs : List Char) : List Char × List Char :=
  (cs.takeWhile Char.isDigit, cs.dropWhile Char.isDigit)

def digitsToNat (ds : List Char) : Nat :=
  ds.foldl (fun a c => a * 10 + (c.toNat - 48)) 0

/-- JSON number token: optional minus, integer part without leading zeros,
optional fraction and exponent (consumed syntactically; the numeric value
keeps the integer part, see the header note on numbers). -/
def parseNumJson (cs : List Char) : Option (Int × List Char) :=
  let p := match cs with
    | '-' :: r => (true, r)
    | _ => (false, cs)
  match p.2 with
  | [] => none
  | c :: _ =>
    if !c.isDigit then none
    else
      let ds := (p.2.takeWhile Char.isDigit)
      let rest := (p.2.dropWhile Char.isDigit)
      if ds.length > 1 && ds.head? == some '0' then none
      else
        let afterFrac : Option (List Char) :=
          match rest with
          | '.' :: r2 =>
              let fs := r2.takeWhile Char.isDigit
              if fs.isEmpty then none else some (r2.dropWhile Char.isDigit)
          | _ => some rest
        match afterFrac with
        | none => none
        | some r4 =>
          let afterExp : Option (List Char) :=
            match r4 with
            | e :: r5 =>
              if e == 'e' || e == 'E' then
                let r6 := match r5 with
                  | s :: r7 => if s == '+' || s == '-' then r7 else r5
                  | [] => r5
                let es := r6.takeWhile Char.isDigit
                if es.isEmpty then none else some (r6.dropWhile Char.isDigit)
              else some r4
            | [] => some r4
          match afterExp with
          | none => none
          | some r9 =>
            let v : Int := Int.ofNat (digitsToNat ds)
            some (if p.1 then -v else v, r9)

/-- Literal token (`true`, `false`, `null`). -/
def parseLit (lit : List Char) (v : Json) (cs : List Char) : Option (Json × List Char) :=
  if beginsWith cs lit then some (v, cs.drop lit.length) else none

/-- Non-empty array tail after `[`, parameterized by the value parser of the
enclosing nesting level. -/
def parseArrItems (pv : List Char → Option (Json × List Char)) :
    Nat → List Char → Option (List Json × List Char)
  | 0, _ => none
  | fuel + 1, cs =>
    match pv cs with
    | none => none
    | some (v, rest) =>
      match jsonSkipWs rest with
      | [] => none
      | c :: rest2 =>
        if c == ',' then
          match parseArrItems pv fuel rest2 with
          | some (vs, rest3) => some (v :: vs, rest3)
          | none => none
        else if c == ']' then some ([v], rest2)
        else none

/-- Non-empty member list after the opening brace, parameterized by the
value parser of the enclosing nesting level. -/
def parseObjItems (pv : List Char → Option (Json × List Char)) :
    Nat → List Char → Option (List (String × Json) × List Char)
  | 0, _ => none
  | fuel + 1, cs =>
    match jsonSkipWs cs with
    | '"' :: rest =>
      match parseStrBody (rest.length + 1) [] rest with
      | none => none
      | some (k, rest2) =>
        match jsonSkipWs rest2 with
        | ':' :: rest3 =>
          match pv rest3 with
          | none => none
          | some (v, rest4) =>
            match jsonSkipWs rest4 with
            | [] => none
            | c :: rest5 =>
              if c == ',' then
                match parseObjItems pv fuel rest5 with
                | some (kvs, rest6) => some ((k, v) :: kvs, rest6)
                | none => none
              else if c == rbrace then some ([(k, v)], rest5)
              else none
        | _ => none
    | _ => none

/-- JSON value parser; the fuel bounds nesting depth and cannot run out for
fuel exceeding the input length. -/
def parseJsonV : Nat → List Char → Option (Json × List Char)
  | 0, _ => none
  | fuel + 1, cs =>
    match jsonSkipWs cs with
    | [] => none
    | c :: rest =>
      if c == lbrace then
        match jsonSkipWs rest with
        | d :: rest2 =>
          if d == rbrace then some (.obj [], rest2)
          else
            match parseObjItems (parseJsonV fuel) (rest.length + 1) rest with
            | some (kvs, rest3) => some (.obj kvs, rest3)
            | none => none
        | [] => none
      else if c == '[' then
        match jsonSkipWs rest with
        | d :: rest2 =>
          if d == ']' then some (.arr [], rest2)
          else
            match parseArrItems (parseJsonV fuel) (rest.length + 1) rest with
            | some (vs, rest3) => some (.arr vs, rest3)
            | none => none
        | [] => none
      else if c == '"' then
        match parseStrBody (rest.length + 1) [] rest with
        | some (s, rest2) => some (.str s, rest2)
        | none => none
      else if c == 't' then parseLit "true".data (.bool true) (c :: rest)
      else if c == 'f' then parseLit "false".data (.bool false) (c :: rest)
      else if c == 'n' then parseLit "null".data Json.null (c :: rest)
      else
        match parseNumJson (c :: rest) with
        | some (n, rest2) => some (.num n, rest2)
        | none => none

/-- Model of `JSON.parse` over the extracted span: a single JSON value
covering the whole text up to trailing whitespace. -/
def jsonParse (s : String) : Option Json :=
  match parseJsonV (s.length + 1) s.data with
  | some (v, rest) => if (jsonSkipWs rest).isEmpty then some v else none
  | none => none

/-- JS `String(parsed.field || '')`. -/
def jsStringOrEmpty (o : Option Json) : String :=
  match o with
  | some v => if jsTruthy v then jsToString v else ""
  | none => ""

/-- Schema validation and defaulting block of `parseOllamaResponse`. -/
def visionNormalize (parsed : Json) : VisionResult :=
  { detected_text := jsStringOrEmpty (parsed.getField "detected_text")
    scene_description := jsStringOrEmpty (parsed.getField "scene_description")
    objects_detected :=
      match parsed.getField "objects_detected" with
      | some (.arr xs) => xs.map jsToString
      | _ => []
    additional_context := jsStringOrEmpty (parsed.getField "additional_context") }

/-- Model of `parseOllamaResponse` (vision/client.js lines 54-84): trim,
strip markdown fences, locate the first opening and last closing brace,
parse the spanned text as JSON, then default missing fields. -/
def parseOllamaResponse (rawText : String) : Except OllamaError VisionResult :=
  let text := stripFences (jsTrim rawText)
  let cs := text.data
  match idxOf? cs lbrace, lastIdxOf? cs rbrace with
  | some s, some e =>
      match jsonParse (String.mk (subRange cs s (e + 1))) with
      | some parsed => .ok (visionNormalize parsed)
      | none => .error .invalidJson
  | _, _ => .error .noJsonFound

/-- One opening brace followed (later) by a closing brace — the literal
reading of a "'\x7b' ... '\x7d' span" in the specification. -/
def hasBraceSpan (s : String) : Bool :=
  match s.data.dropWhile (fun c => c != lbrace) with
  | [] => false
  | _ :: rest => rest.contains rbrace

/-! ## Spec-side predicates -/

/-- Specification-side acceptance condition of claim C1: unseen identifier,
a publish date inside `[startDate, endDate]`, strictly after the configured
checkpoint (when one is set), and a keyword match unless the keyword list
is empty. -/
def acceptSpec (st : ProcState) (post : NPost) : Prop :=
  post.postIdentifier ∉ st.seenIds ∧
  ∃ ts, post.publishedAt = some ts ∧ ts ≤ st.endDate ∧ st.startDate ≤ ts ∧
    (∀ l, st.latestStoredDate = some l → l < ts) ∧
    (st.keywords = [] ∨ ∃ kw ∈ st.keywords,
      strIncludes (String.toLower post.captionText) kw = true)

/-- Order-independent violation test for each rejection rule. -/
def violatesB (st : ProcState) (post : NPost) : Reason → Bool
  | .duplicate => st.seenIds.contains post.postIdentifier
  | .noDate => post.publishedAt.isNone
  | .tooNew => post.publishedAt.any (fun ts => st.endDate < ts)
  | .tooOld => post.publishedAt.any (fun ts => ts < st.startDate)
  | .alreadyArchived =>
      post.publishedAt.any (fun ts => st.latestStoredDate.any (fun l => ts ≤ l))
  | .noKeyword =>
      !st.keywords.isEmpty && st.keywords.all
        (fun kw => !(strIncludes (String.toLower post.captionText) kw))

/-- The fixed rule order of `process`. -/
def ruleOrder : List Reason :=
  [.duplicate, .noDate, .tooNew, .tooOld, .alreadyArchived, .noKeyword]

/-- The counter `process` bumps for each rejection branch (the
already-archived branch only has the aggregate `skipped`). -/
def reasonCounter : Reason → Stats → Nat
  | .duplicate => Stats.noDup
  | .noDate => Stats.noDate
  | .tooNew => Stats.tooNew
  | .tooOld => Stats.tooOld
  | .alreadyArchived => Stats.skipped
  | .noKeyword => Stats.noKeyword

/-! ## Claim theorems -/

def resumeSt : ProcState :=
  mkPostProcessor 1686787200000 1686873600000 (some 1686823200000) []

def post11am : NPost := ⟨"p-eleven", some 1686826800000, ""⟩

def post9am : NPost := ⟨"p-nine", some 1686819600000, ""⟩

def boundarySt : ProcState := mkPostProcessor 1000 2000 none []

def oldPost : NPost := ⟨"w2-old", some 500, ""⟩

def newPost : NPost := ⟨"w2-new", some 2500, ""⟩

def w4Post : NPost := ⟨"w4-nodate", none, ""⟩

def slideDup : Json := .obj [("display_url", .str "http://x/a.jpg")]

def carNode : Json :=
  .obj [("id", .str "p1"), ("taken_at_timestamp", .num 1686823800),
    ("carousel_media", .arr [slideDup, slideDup])]

def freshPd : PostData :=
  ⟨"fresh-id", none, none, none, none, none, none, none, none, none⟩

def gqlNode : Json := .obj [("id", .str "x"), ("taken_at_timestamp", .num 5)]

def gqlPayload : Json :=
  .obj [("data", .obj [("edges", .arr [.obj [("node", gqlNode)]])])]

def proseInput : String := "Sure! Here is the JSON:\n\x7b\"detected_text\":\"text\"\x7d"

def carPost : IPost :=
  { postIdentifier := "p1", postUrl := none, imageUrl := none, videoUrl := none,
    mediaType := "carousel", captionText := "", comments := [],
    publishedAt := some 1686823800000, rawNode := some carNode }

/-! ## Supporting lemmas -/

theorem digitChar10_inj {a b : Nat} (ha : a < 10) (hb : b < 10)
    (h : digitChar10 a = digitChar10 b) : a = b := by
  interval_cases a <;> interval_cases b <;> simp_all [digitChar10]

theorem map_digitChar10_inj : ∀ (xs ys : List Nat), (∀ x ∈ xs, x < 10) →
    (∀ y ∈ ys, y < 10) → xs.map digitChar10 = ys.map digitChar10 → xs = ys
  | [], [], _, _, _ => rfl
  | [], _ :: _, _, _, h => by simp at h
  | _ :: _, [], _, _, h => by simp at h
  | x :: xs, y :: ys, hx, hy, h => by
    simp only [List.map_cons, List.cons.injEq] at h
    have hxy := digitChar10_inj (hx x (by simp)) (hy y (by simp)) h.1
    have := map_digitChar10_inj xs ys (fun a ha => hx a (by simp [ha]))
      (fun a ha => hy a (by simp [ha])) h.2
    simp [hxy, this]

theorem digitsRevF_eq : ∀ fuel n : Nat, n ≤ fuel → digitsRevF fuel n = Nat.digits 10 n
  | 0, 0, _ => by simp [digitsRevF]
  | fuel + 1, n, hle => by
    rcases Nat.eq_zero_or_pos n with h0 | hpos
    · subst h0
      simp [digitsRevF]
    · have hdiv : n / 10 ≤ fuel := by
        have := Nat.div_lt_self hpos (by norm_num : (1 : Nat) < 10)
        omega
      rw [show digitsRevF (fuel + 1) n = n % 10 :: digitsRevF fuel (n / 10) from by
          cases n with
          | zero => omega
          | succ m => rfl,
        digitsRevF_eq fuel (n / 10) hdiv,
        Nat.digits_def' (by norm_num : (1 : Nat) < 10) hpos]

theorem jsNatRepr_digits (n : Nat) :
    jsNatRepr n
      = (if n = 0 then "0"
         else String.mk ((Nat.digits 10 n).reverse.map digitChar10)) := by
  unfold jsNatRepr
  rw [digitsRevF_eq n n (Nat.le_refl n)]

theorem jsNatRepr_inj : Function.Injective jsNatRepr := by
  intro a b h
  rw [jsNatRepr_digits, jsNatRepr_digits] at h
  have digitsEq : ∀ m k : Nat, m ≠ 0 → k ≠ 0 →
      String.mk ((Nat.digits 10 m).reverse.map digitChar10)
        = String.mk ((Nat.digits 10 k).reverse.map digitChar10) → m = k := by
    intro m k hm hk hmk
    have hlist := congrArg String.data hmk
    simp only [String.data] at hlist
    have hdig := map_digitChar10_inj _ _
      (fun x hx => Nat.digits_lt_base (by norm_num) (List.mem_reverse.mp hx))
      (fun y hy => Nat.digits_lt_base (by norm_num) (List.mem_reverse.mp hy)) hlist
    have := congrArg List.reverse hdig
    simp only [List.reverse_reverse] at this
    calc m = Nat.ofDigits 10 (Nat.digits 10 m) := (Nat.ofDigits_digits 10 m).symm
    _ = Nat.ofDigits 10 (Nat.digits 10 k) := by rw [this]
    _ = k := Nat.ofDigits_digits 10 k
  by_cases ha : a = 0 <;> by_cases hb : b = 0
  · simp [ha, hb]
  · exfalso
    simp only [ha, if_pos rfl, if_neg hb] at h
    have hlist := congrArg String.data h.symm
    simp only [String.data] at hlist
    have : (Nat.digits 10 b).reverse = [0] := by
      have := map_digitChar10_inj _ [0]
        (fun x hx => Nat.digits_lt_base (by norm_num) (List.mem_reverse.mp hx))
        (by simp) (by simpa [digitChar10] using hlist)
      exact this
    have hb0 : Nat.digits 10 b = [0] := by
      have := congrArg List.reverse this
      simpa using this
    have := Nat.ofDigits_digits 10 b
    rw [hb0] at this
    simp [Nat.ofDigits] at this
    exact hb this.symm
  · exfalso
    simp only [hb, if_neg ha, if_pos rfl] at h
    have hlist := congrArg String.data h
    simp only [String.data] at hlist
    have : (Nat.digits 10 a).reverse = [0] := by
      have := map_digitChar10_inj _ [0]
        (fun x hx => Nat.digits_lt_base (by norm_num) (List.mem_reverse.mp hx))
        (by simp) (by simpa [digitChar10] using hlist)
      exact this
    have ha0 : Nat.digits 10 a = [0] := by
      have := congrArg List.reverse this
      simpa using this
    have := Nat.ofDigits_digits 10 a
    rw [ha0] at this
    simp [Nat.ofDigits] at this
    exact ha this.symm
  · simp only [if_neg ha, if_neg hb] at h
    exact digitsEq a b ha hb h

theorem string_append_left_cancel {a b c : String} (h : a ++ b = a ++ c) : b = c := by
  have hd := congrArg String.data h
  simp only [String.data_append] at hd
  have hbc := List.append_cancel_left hd
  cases b
  cases c
  exact congrArg String.mk hbc

/-! ## JSON value model -/

theorem process_seenIds_eq (st : ProcState) (p : NPost) :
    (process st p).state.seenIds
      = (if p.postIdentifier ∈ st.seenIds then st.seenIds
         else p.postIdentifier :: st.seenIds) := by
  unfold process
  rcases hpub : p.publishedAt with _ | ts <;> simp only [hpub] <;>
    split_ifs with h1 h2 h3 h4 h5 <;> simp_all [List.elem_iff]

theorem mem_seenIds_after (st : ProcState) (p : NPost) :
    p.postIdentifier ∈ (process st p).state.seenIds := by
  rw [process_seenIds_eq]
  split_ifs with h
  · exact h
  · exact List.mem_cons_self _ _

theorem runProcess_seen (posts : List NPost) : ∀ st : ProcState, st.seenIds.Nodup →
    (runProcess st posts).seenIds.Nodup ∧
    (runProcess st posts).seenIds.toFinset
      = st.seenIds.toFinset ∪ (posts.map NPost.postIdentifier).toFinset := by
  induction posts with
  | nil =>
      intro st h
      simp [runProcess, h]
  | cons p ps ih =>
      intro st h
      have hstep := process_seenIds_eq st p
      have hnd : (process st p).state.seenIds.Nodup := by
        rw [hstep]
        split_ifs with hm
        · exact h
        · exact List.nodup_cons.mpr ⟨hm, h⟩
      have hrun : runProcess st (p :: ps) = runProcess (process st p).state ps := rfl
      have hset : (process st p).state.seenIds.toFinset
          = insert p.postIdentifier st.seenIds.toFinset := by
        rw [hstep]
        split_ifs with hm
        · exact (Finset.insert_eq_self.mpr (List.mem_toFinset.mpr hm)).symm
        · simp [List.toFinset_cons]
      rcases ih (process st p).state hnd with ⟨ihnd, ihset⟩
      refine ⟨by rw [hrun]; exact ihnd, ?_⟩
      rw [hrun, ihset, hset]
      simp [List.toFinset_cons, Finset.insert_union, Finset.union_insert]

theorem findPostNodesF_pred :
    ∀ (fuel : Nat) (obj : Json) (depth : Nat),
      ∀ x ∈ findPostNodesF fuel obj depth, looksLikePost x = true := by
  intro fuel
  induction fuel with
  | zero =>
      intro obj depth x hx
      simp [findPostNodesF] at hx
  | succ f ih =>
      intro obj depth x hx
      unfold findPostNodesF at hx
      by_cases hd : depth > 12
      · rw [if_pos hd] at hx
        simp at hx
      · rw [if_neg hd] at hx
        match obj with
        | .null | .bool _ | .num _ | .str _ => simp at hx
        | .arr items =>
            simp only [List.mem_flatten, List.mem_map] at hx
            rcases hx with ⟨l, ⟨item, hitem, hl⟩, hxl⟩
            subst hl
            match item with
            | .null | .bool _ | .num _ | .str _ => simp at hxl
            | .arr xs =>
                revert hxl
                dsimp only
                split
                · intro hxl
                  rcases List.mem_singleton.mp hxl with rfl
                  assumption
                · intro hxl
                  exact ih _ _ x hxl
            | .obj fs =>
                revert hxl
                dsimp only
                split
                · intro hxl
                  rcases List.mem_singleton.mp hxl with rfl
                  assumption
                · intro hxl
                  exact ih _ _ x hxl
        | .obj fields =>
            simp only [List.mem_flatten, List.mem_map] at hx
            rcases hx with ⟨l, ⟨kv, hkv, hl⟩, hxl⟩
            subst hl
            revert hxl
            split
            · intro hxl
              exact ih _ _ x hxl
            · split
              · intro hxl
                exact ih _ _ x hxl
              · intro hxl
                simp at hxl

/-! ## Claim theorems -/

theorem c1_accept_iff (st : ProcState) (post : NPost) :
    ((process st post).accepted = true ↔ acceptSpec st post) ∧
    (process st post).emitted
      = (if (process st post).accepted then [post] else []) := by
  unfold process acceptSpec
  rcases hpub : post.publishedAt with _ | ts <;> simp only [hpub] <;> split_ifs with h1 h2 h3 h4 h5
  all_goals simp_all [List.elem_iff, List.any_eq_true, Option.any,
    List.isEmpty_iff, List.eq_nil_iff_forall_not_mem]
  · rename_i harch
    intro hall
    rcases hlsd : st.latestStoredDate with _ | l
    · rw [hlsd] at harch
      simp at harch
    · rw [hlsd] at harch
      simp at harch
      exact absurd (hall l hlsd) (by omega)
  · rename_i harch hkw
    intro _
    exact List.exists_mem_of_length_pos hkw.1
  · rename_i harch hkw
    constructor
    · intro l hl
      rw [hl] at harch
      simp at harch
      omega
    · by_cases hk : st.keywords.length = 0
      · left
        intro a ha
        exact absurd (List.length_pos_of_mem ha) (by omega)
      · right
        exact hkw (by omega)

/-- C1 witness: with a persisted checkpoint of 2023-06-15T10:00:00Z, the post
dated 11:00Z is accepted and forwarded exactly once; the post dated 09:00Z is
rejected (already archived). -/
theorem c1_accept_iff_witness :
    (process resumeSt post11am).accepted = true ∧
    (process resumeSt post11am).emitted = [post11am] ∧
    (process resumeSt post9am).accepted = false := by
  have h := c1_accept_iff resumeSt post11am
  have ha : (process resumeSt post11am).accepted = true := by
    apply h.1.mpr
    refine ⟨by decide, 1686826800000, rfl, by decide, by decide, ?_, Or.inl rfl⟩
    intro l hl
    simp [resumeSt, mkPostProcessor] at hl
    omega
  refine ⟨ha, ?_, ?_⟩
  · rw [h.2, ha]
    rfl
  · have h9 := (c1_accept_iff resumeSt post9am).1
    cases hx : (process resumeSt post9am).accepted
    · rfl
    · exfalso
      rcases h9.mp hx with ⟨-, ts, hts, -, -, hchk, -⟩
      simp [post9am] at hts
      have := hchk 1686823200000 rfl
      omega

/-- C2. After any `process` call the `belowBoundary` flag is true exactly when
that call rejected the post as too old: the post was not a duplicate, had a
date, the date was not after `endDate` and was before `startDate`. The flag is
reset at the start of each call, so it is never sticky across calls, a
duplicate leaves it unset, and a too-new post does not set it. -/
theorem c2_below_boundary_iff (st : ProcState) (post : NPost) :
    (process st post).state.belowBoundary = true ↔
      (post.postIdentifier ∉ st.seenIds ∧
        ∃ ts, post.publishedAt = some ts ∧ ts ≤ st.endDate ∧ ts < st.startDate) := by
  unfold process
  rcases hpub : post.publishedAt with _ | ts <;> simp only [hpub] <;>
    split_ifs with h1 h2 h3 h4 h5 <;>
    simp_all [List.elem_iff]

/-- C2 witness: a post dated before `start` sets the flag on that call; a post
dated after `end` does not. -/
theorem c2_below_boundary_witness :
    (process boundarySt oldPost).state.belowBoundary = true ∧
    (process boundarySt newPost).state.belowBoundary = false := by
  constructor
  · exact (c2_below_boundary_iff boundarySt oldPost).mpr
      ⟨by decide, 500, rfl, by decide, by decide⟩
  · cases hb : (process boundarySt newPost).state.belowBoundary
    · rfl
    · exfalso
      rcases (c2_below_boundary_iff boundarySt newPost).mp hb with ⟨-, ts, hts, hle, -⟩
      simp [newPost] at hts
      simp [boundarySt, mkPostProcessor] at hle
      omega

/-- C3 counterexample: `parseDate(1e11)` falls at or below the code's `1e12`
threshold and is interpreted as seconds (yielding the instant `1e14` ms), not
as milliseconds (`1e11` ms) as the claimed `1e10` threshold would demand; and
`parseDate(1686823800)` yields 1686823800000 ms = 2023-06-15T10:10:00Z, not
the claimed 2023-06-15T14:30:00Z. -/
theorem c3_counterexample :
    parseDateNum 100000000000 = some 100000000000000 ∧
    (100000000000000 : Int) ≠ 100000000000 ∧
    parseDateNum 1686823800 = some 1686823800000 ∧
    (1686823800000 : Int) ≠ 1686839400000 :=
  ⟨by decide, by decide, by decide, by decide⟩

/-- C3 amended. In `parseDate`'s numeric branch the magnitude threshold is
`1e12` (not `1e10`): nonzero values above it are Unix milliseconds, values at
or below it Unix seconds, both then subject to the JS `Date` validity range;
`parseDate(1686823800)` and `parseDate(1686823800000)` both yield the same UTC
instant 2023-06-15T10:10:00Z (1686823800000 ms); and the interceptor's
companion `extractTimestamp` does use the `1e10` threshold on numeric
timestamp fields. `parseDate` is total (never throws). -/
theorem c3_amended :
    (∀ n : Int, n ≠ 0 →
      (n > 1000000000000 → parseDateNum n = newDateMs n) ∧
      (n ≤ 1000000000000 → parseDateNum n = newDateMs (n * 1000))) ∧
    parseDateNum 1686823800 = some 1686823800000 ∧
    parseDateNum 1686823800000 = some 1686823800000 ∧
    (∀ n : Int, extractTimestamp (Json.obj [("taken_at_timestamp", Json.num n)])
      = (if n > 10000000000 then newDateMs n else newDateMs (n * 1000))) := by
  refine ⟨?_, by decide, by decide, ?_⟩
  · intro n hn
    constructor
    · intro h
      simp [parseDateNum, hn]
      intro h2
      exact absurd h2 (by omega)
    · intro h
      simp [parseDateNum, hn]
      intro h2
      exact absurd h2 (by omega)
  · intro n
    by_cases h : (10000000000 : Int) < n
    · cases hnd : newDateMs n <;>
        simp [extractTimestamp, TIMESTAMP_FIELDS, Json.getField, List.lookup, h, hnd]
    · cases hnd : newDateMs (n * 1000) <;>
        simp [extractTimestamp, TIMESTAMP_FIELDS, Json.getField, List.lookup, h, hnd]

/-- C3 witness: the seconds branch applies at 1686823800 and both example
forms produce the same instant. -/
theorem c3_amended_witness :
    parseDateNum 1686823800 = newDateMs (1686823800 * 1000) ∧
    extractTimestamp (Json.obj [("taken_at_timestamp", Json.num 1686823800)])
      = some 1686823800000 :=
  ⟨(c3_amended.1 1686823800 (by decide)).2 (by decide),
    (c3_amended.2.2.2 1686823800).trans (by decide)⟩

/-- C4. `process` evaluates its rejection rules in the fixed order duplicate,
no-date, too-new, too-old, already-archived, keyword-mismatch, the first
matching rule short-circuiting (the reported reason is the first violated rule
in `ruleOrder`), and each rejection bumps that rule's counter by one (for
already-archived, the code's only counter is the aggregate `skipped`). In
particular a post with an unseen identifier and no parseable date is rejected
as no-date, not duplicate. -/
theorem c4_rule_order (st : ProcState) (post : NPost) :
    ((process st post).reason = ruleOrder.find? (violatesB st post)) ∧
    (∀ r, (process st post).reason = some r →
      reasonCounter r (process st post).state.stats
        = reasonCounter r st.stats + 1) := by
  unfold process
  rcases hpub : post.publishedAt with _ | ts <;> simp only [hpub] <;>
    split_ifs with h1 h2 h3 h4 h5 <;> constructor <;>
    simp_all [ruleOrder, violatesB, List.find?, reasonCounter, Option.any,
      Option.isNone, List.all_eq_true, List.any_eq_true, List.isEmpty_iff,
      List.length_pos, List.eq_nil_iff_forall_not_mem]
  · rw [decide_eq_false (show ¬st.endDate < ts by omega)]
  · rw [decide_eq_false (show ¬st.endDate < ts by omega),
        decide_eq_false (show ¬ts < st.startDate by omega)]
  · rw [decide_eq_false (show ¬st.endDate < ts by omega),
        decide_eq_false (show ¬ts < st.startDate by omega)]
    have hne : st.keywords ≠ [] := by
      rcases h5.1 with ⟨x, hx⟩
      intro hnil
      rw [hnil] at hx
      simp at hx
    have hkwb : (!st.keywords.isEmpty
        && st.keywords.all fun kw => !strIncludes post.captionText.toLower kw) = true := by
      simp [List.isEmpty_iff, hne, List.all_eq_true]
      intro x hx
      exact h5.2 x hx
    rw [hkwb]
  · rw [decide_eq_false (show ¬st.endDate < ts by omega),
        decide_eq_false (show ¬ts < st.startDate by omega)]
    have hkwb : (!st.keywords.isEmpty
        && st.keywords.all fun kw => !strIncludes post.captionText.toLower kw) = false := by
      by_cases hnil : st.keywords = []
      · simp [hnil]
      · rcases List.exists_mem_of_ne_nil st.keywords hnil with ⟨y, hy⟩
        rcases h5 y hy with ⟨kw, hkwmem, hkwinc⟩
        simp [List.all_eq_true, List.isEmpty_iff, hnil]
        exact ⟨kw, hkwmem, by simp [hkwinc]⟩
    rw [hkwb]

/-- C4 witness: an unseen identifier with no date yields reason no-date and
bumps the no-date counter. -/
theorem c4_rule_order_witness :
    (process boundarySt w4Post).reason = some Reason.noDate ∧
    reasonCounter Reason.noDate (process boundarySt w4Post).state.stats
      = reasonCounter Reason.noDate boundarySt.stats + 1 := by
  have h := c4_rule_order boundarySt w4Post
  have hr : (process boundarySt w4Post).reason = some Reason.noDate :=
    h.1.trans (by decide)
  exact ⟨hr, h.2 Reason.noDate hr⟩

/-- C5. Once three consecutive verdicts report no new content, the scroll
driver's generator terminates without performing any further page-interaction
block, whatever verdicts would follow; and a tick reported as having new
content resets the stable counter to zero. -/
theorem c5_stabilization :
    (∀ (c : Nat) (rest : List Bool),
      scrollInteractions c ([false, false, false] ++ rest)
        = scrollInteractions c [false, false, false]) ∧
    (∀ c : Nat, scrollStep c true = some 0) := by
  constructor
  · intro c rest
    rcases c with _ | _ | n <;>
      simp [scrollInteractions, scrollStep, MAX_STABLE_ITERS]
  · intro c
    rfl

/-- C6 counterexample: a carousel node whose two slides carry the same
`display_url` emits two posts with distinct identifier suffixes `_c1`, `_c2`
but identical (non-null) media URLs — the claimed pairwise-distinct media
URLs do not hold. -/
theorem c6_counterexample :
    (emitForNode carNode).length = 2 ∧
    ((emitForNode carNode)[0]?.map IPost.imageUrl)
      = ((emitForNode carNode)[1]?.map IPost.imageUrl) ∧
    ((emitForNode carNode)[0]?.map IPost.imageUrl)
      = some (some "http://x/a.jpg") ∧
    ((emitForNode carNode)[0]?.map IPost.postIdentifier) = some "p1_c1" ∧
    ((emitForNode carNode)[1]?.map IPost.postIdentifier) = some "p1_c2" := by
  refine ⟨?_, ?_, ?_, ?_, ?_⟩ <;> decide

/-- C6 amended. A post node carrying a carousel slide list of n > 1 slides
that normalizes successfully emits exactly n posts, all sharing the parent's
caption text and published date; the k-th post's identifier is the parent
identifier suffixed `_c<k>`, and these identifiers are pairwise distinct. Each
emitted post's media URL is its own slide's extracted URL, falling back to the
parent's URL when the slide yields none — so media URLs are distinct only
when the slides' extracted URLs are. -/
theorem c6_amended (node : Json) (post : IPost) (slides : List Json)
    (hnorm : normalizePost node = some post)
    (hslides : carouselSlidesOf node = some (.arr slides))
    (hlen : slides.length > 1) :
    (emitForNode node).length = slides.length ∧
    (∀ i s, slides[i]? = some s → ∃ p,
      (emitForNode node)[i]? = some p ∧
      p.captionText = post.captionText ∧
      p.publishedAt = post.publishedAt ∧
      p.postIdentifier = post.postIdentifier ++ "_c" ++ jsNatRepr (i + 1) ∧
      p.imageUrl = jsStrOr (extractImageUrl s) post.imageUrl) ∧
    (∀ (i j : Nat) (p q : IPost), (emitForNode node)[i]? = some p →
      (emitForNode node)[j]? = some q → i ≠ j →
      p.postIdentifier ≠ q.postIdentifier) := by
  have hout : emitForNode node = slides.enum.map (fun pr =>
      { post with
        postIdentifier := post.postIdentifier ++ "_c" ++ jsNatRepr (pr.1 + 1)
        imageUrl := jsStrOr (extractImageUrl pr.2) post.imageUrl
        videoUrl := if nodeIsVideo pr.2 then extractVideoUrl pr.2 else none
        mediaType := if nodeIsVideo pr.2 then "video" else "image"
        rawNode := none }) := by
    unfold emitForNode
    rw [hnorm, hslides]
    dsimp only
    rw [if_pos hlen]
  refine ⟨?_, ?_, ?_⟩
  · rw [hout]
    simp
  · intro i s hs
    have hp : (emitForNode node)[i]?
        = some { post with
            postIdentifier := post.postIdentifier ++ "_c" ++ jsNatRepr (i + 1)
            imageUrl := jsStrOr (extractImageUrl s) post.imageUrl
            videoUrl := if nodeIsVideo s then extractVideoUrl s else none
            mediaType := if nodeIsVideo s then "video" else "image"
            rawNode := none } := by
      rw [hout, List.getElem?_map, List.getElem?_enum, hs]
      rfl
    exact ⟨_, hp, rfl, rfl, rfl, rfl⟩
  · intro i j p q hp hq hij
    rw [hout, List.getElem?_map, List.getElem?_enum] at hp hq
    rcases hsi : slides[i]? with _ | s1
    · rw [hsi] at hp
      simp at hp
    rcases hsj : slides[j]? with _ | s2
    · rw [hsj] at hq
      simp at hq
    rw [hsi] at hp
    rw [hsj] at hq
    simp only [Option.map_some', Option.some.injEq] at hp hq
    intro heq
    rw [← hp, ← hq] at heq
    simp only at heq
    apply hij
    have h1 : jsNatRepr (i + 1) = jsNatRepr (j + 1) := by
      rw [String.append_assoc, String.append_assoc] at heq
      exact string_append_left_cancel (string_append_left_cancel heq)
    have := jsNatRepr_inj h1
    omega

/-- C6 witness: the two-slide fixture emits two posts and the first carries
the `_c1` suffix. -/
theorem c6_amended_witness :
    (emitForNode carNode).length = 2 ∧
    (∃ p, (emitForNode carNode)[0]? = some p ∧
      p.postIdentifier = carPost.postIdentifier ++ "_c" ++ jsNatRepr 1) := by
  have h := c6_amended carNode carPost [slideDup, slideDup] rfl rfl (by decide)
  refine ⟨h.1.trans rfl, ?_⟩
  rcases h.2.1 0 slideDup rfl with ⟨p, hp, -, -, hid, -⟩
  exact ⟨p, hp, hid⟩

/-- C7. Inserting a post identifier that is not yet stored returns
`inserted = true`; a subsequent insert with the same identifier returns
`inserted = false` without error and leaves the stored state exactly as after
the first insert, which holds exactly one row for that identifier. -/
theorem c7_insert_idempotent (db : JsonDb) (now1 now2 : String) (sid1 sid2 : Nat)
    (pd1 pd2 : PostData) (hid : pd2.postIdentifier = pd1.postIdentifier)
    (habs : ∀ r ∈ db.posts, r.post_identifier ≠ pd1.postIdentifier) :
    (insertPost db now1 sid1 pd1).1 = true ∧
    (insertPost (insertPost db now1 sid1 pd1).2 now2 sid2 pd2).1 = false ∧
    (insertPost (insertPost db now1 sid1 pd1).2 now2 sid2 pd2).2
      = (insertPost db now1 sid1 pd1).2 ∧
    ((insertPost db now1 sid1 pd1).2.posts.filter
      (fun r => r.post_identifier == pd1.postIdentifier)).length = 1 := by
  have hfind : db.posts.find? (fun p => p.post_identifier == pd1.postIdentifier) = none := by
    rw [List.find?_eq_none]
    intro x hx
    simpa using habs x hx
  have h1 : insertPost db now1 sid1 pd1
      = (true, { posts := db.posts ++ [mkDbPost now1 sid1 pd1] }) := by
    unfold insertPost
    rw [hfind]
  have hfind2 : (db.posts ++ [mkDbPost now1 sid1 pd1]).find?
      (fun p => p.post_identifier == pd2.postIdentifier) = some (mkDbPost now1 sid1 pd1) := by
    rw [List.find?_append]
    simp only [hid, hfind, Option.none_or]
    simp [List.find?, mkDbPost]
  have h2 : insertPost { posts := db.posts ++ [mkDbPost now1 sid1 pd1] } now2 sid2 pd2
      = (false, { posts := db.posts ++ [mkDbPost now1 sid1 pd1] }) := by
    unfold insertPost
    rw [hfind2]
  refine ⟨by rw [h1], ?_, ?_, ?_⟩
  · rw [h1, h2]
  · rw [h1, h2]
  · rw [h1]
    have hf1 : db.posts.filter (fun r => r.post_identifier == pd1.postIdentifier) = [] := by
      rw [List.filter_eq_nil_iff]
      intro a ha
      simpa using habs a ha
    simp only [List.filter_append, hf1]
    simp [mkDbPost]

/-- C7 witness: double insert of a fresh identifier into the empty store. -/
theorem c7_insert_idempotent_witness :
    (insertPost ⟨[]⟩ "t0" 1 freshPd).1 = true ∧
    (insertPost (insertPost ⟨[]⟩ "t0" 1 freshPd).2 "t1" 2 freshPd).1 = false ∧
    (insertPost (insertPost ⟨[]⟩ "t0" 1 freshPd).2 "t1" 2 freshPd).2
      = (insertPost ⟨[]⟩ "t0" 1 freshPd).2 ∧
    ((insertPost ⟨[]⟩ "t0" 1 freshPd).2.posts.filter
      (fun r => r.post_identifier == freshPd.postIdentifier)).length = 1 :=
  c7_insert_idempotent ⟨[]⟩ "t0" "t1" 1 2 freshPd freshPd rfl (by simp)

/-- C8. The recursive post-node search is depth-bounded by 12: at any depth
beyond the bound it returns the empty result (a hard cutoff, not an error —
the function is total by construction), and every object it returns satisfies
the looks-like-a-post predicate. -/
theorem c8_depth_and_predicate (obj : Json) (depth : Nat) :
    (depth > 12 → findPostNodes obj depth = []) ∧
    (∀ x ∈ findPostNodes obj depth, looksLikePost x = true) := by
  constructor
  · intro hd
    unfold findPostNodes
    rw [show 13 - depth = 0 from by omega]
    rfl
  · intro x hx
    exact findPostNodesF_pred _ _ _ x hx

/-- C8 witness: at depth 13 the search returns nothing; a node found inside a
nested edges payload satisfies the predicate. -/
theorem c8_depth_and_predicate_witness :
    findPostNodes Json.null 13 = [] ∧ looksLikePost gqlNode = true := by
  constructor
  · exact (c8_depth_and_predicate Json.null 13).1 (by decide)
  · apply (c8_depth_and_predicate gqlPayload 0).2 gqlNode
    rw [show findPostNodes gqlPayload 0 = [gqlNode] from rfl]
    exact List.mem_singleton.mpr rfl

/-- C9 amended. For every input string the inference-output parser either
returns a result with all four fields present (missing fields defaulted), or
raises exactly one of two errors: no-JSON-found exactly when the trimmed,
fence-stripped text lacks an opening brace or lacks a closing brace (not:
lacks an in-order brace span), and invalid-JSON exactly when the text between
the first opening and last closing brace fails to parse as JSON. -/
theorem c9_amended (s : String) :
    ((idxOf? (stripFences (jsTrim s)).data lbrace = none ∨
      lastIdxOf? (stripFences (jsTrim s)).data rbrace = none) →
      parseOllamaResponse s = .error .noJsonFound) ∧
    (∀ i j, idxOf? (stripFences (jsTrim s)).data lbrace = some i →
      lastIdxOf? (stripFences (jsTrim s)).data rbrace = some j →
      ((jsonParse (String.mk (subRange (stripFences (jsTrim s)).data i (j + 1))) = none →
          parseOllamaResponse s = .error .invalidJson) ∧
        (∀ v, jsonParse (String.mk (subRange (stripFences (jsTrim s)).data i (j + 1)))
            = some v →
          parseOllamaResponse s = .ok (visionNormalize v)))) := by
  unfold parseOllamaResponse
  rcases h1 : idxOf? (stripFences (jsTrim s)).data lbrace with _ | i0 <;>
    rcases h2 : lastIdxOf? (stripFences (jsTrim s)).data rbrace with _ | j0 <;>
    simp only [h1, h2]
  · constructor
    · intro hx
      exact True.intro
    · intro i j hx hy
      cases hx
  · constructor
    · intro hx
      exact True.intro
    · intro i j hx hy
      cases hx
  · constructor
    · intro hx
      exact True.intro
    · intro i j hx hy
      cases hy
  · constructor
    · intro h
      rcases h with h | h <;> cases h
    · intro i j hi hj
      cases hi
      cases hj
      rcases hp : jsonParse (String.mk (subRange (stripFences (jsTrim s)).data i0 (j0 + 1)))
        with _ | v <;> simp only [hp]
      · constructor
        · intro _
          first
          | rfl
          | exact True.intro
        · intro v hv
          cases hv
      · constructor
        · intro h
          cases h
        · intro v hv
          cases hv
          rfl

/-- C9 counterexample: the input consisting of a closing brace followed by an
opening brace contains no in-order brace span, yet the parser raises
invalid-JSON (the extracted empty slice fails to parse), not the
no-JSON-found error the claim predicts for span-less inputs. -/
theorem c9_counterexample :
    parseOllamaResponse "\x7d\x7b" = .error .invalidJson ∧
    hasBraceSpan "\x7d\x7b" = false ∧
    OllamaError.invalidJson ≠ OllamaError.noJsonFound := by
  refine ⟨rfl, by decide, by decide⟩

/-- C9 witness: a JSON object embedded in surrounding prose parses
successfully, extracting only the embedded object with missing fields
defaulted; prose without any brace raises no-JSON-found. -/
theorem c9_amended_witness :
    parseOllamaResponse proseInput
      = .ok ⟨"text", "", [], ""⟩ ∧
    parseOllamaResponse "this is not json at all" = .error .noJsonFound := by
  constructor
  · have h := ((c9_amended proseInput).2 24 47 (by decide) (by decide)).2
      (Json.obj [("detected_text", Json.str "text")]) rfl
    rw [h]
    rfl
  · exact (c9_amended "this is not json at all").1 (Or.inl (by decide))

/-- C10. `process` adds the incoming identifier to the run-scoped seen-set
whenever it is not already present — before any date, checkpoint or keyword
rule runs, so the set grows on rejected posts too; a second call with the same
identifier is always rejected as a duplicate; and `uniqueSeen` counts every
distinct identifier ever passed to `process`, not only accepted posts. -/
theorem c10_seen_set (st : ProcState) (p q : NPost) (posts : List NPost) :
    ((process st p).state.seenIds
        = (if p.postIdentifier ∈ st.seenIds then st.seenIds
           else p.postIdentifier :: st.seenIds)) ∧
    (q.postIdentifier = p.postIdentifier →
      (process (process st p).state q).reason = some .duplicate) ∧
    (st.seenIds.Nodup →
      (runProcess st posts).seenIds.Nodup ∧
      uniqueSeen (runProcess st posts)
        = (st.seenIds ++ posts.map NPost.postIdentifier).toFinset.card) := by
  refine ⟨process_seenIds_eq st p, ?_, ?_⟩
  · intro hq
    have hmem : q.postIdentifier ∈ (process st p).state.seenIds := by
      rw [hq]
      exact mem_seenIds_after st p
    set st1 := (process st p).state with hst1
    unfold process
    simp [List.elem_iff, hmem]
  · intro hnd
    rcases runProcess_seen posts st hnd with ⟨hnd2, hset⟩
    refine ⟨hnd2, ?_⟩
    have hcard := List.toFinset_card_of_nodup hnd2
    unfold uniqueSeen
    rw [← hcard, hset, List.toFinset_append]

/-- C10 witness: a no-date post still lands in the seen-set, its repeat is a
duplicate, and `uniqueSeen` counts distinct identifiers including rejected
ones. -/
theorem c10_seen_set_witness :
    ((process boundarySt w4Post).state.seenIds = ["w4-nodate"]) ∧
    (process (process boundarySt w4Post).state w4Post).reason
      = some Reason.duplicate ∧
    uniqueSeen (runProcess boundarySt [w4Post, w4Post, oldPost])
      = (boundarySt.seenIds
          ++ [w4Post, w4Post, oldPost].map NPost.postIdentifier).toFinset.card := by
  have h := c10_seen_set boundarySt w4Post w4Post [w4Post, w4Post, oldPost]
  refine ⟨?_, h.2.1 rfl, (h.2.2 (by decide)).2⟩
  rw [h.1]
  decide
